import Mathlib

/-!
Verification of the resilience layer of the homepage-clone planner:
the tiered cache (`src/utils/cache.py`), the retry executor
(`src/utils/retry.py`), the usage governor (`src/api/api_monitor.py`)
and the client pipeline (`src/api/api_client.py`).

Python dictionaries (and `OrderedDict`s) are modelled as association
lists in insertion order; wall-clock instants are modelled as natural
numbers threaded explicitly; monetary amounts are rationals.  Each
`async with self._lock` block is modelled explicitly: an operation that
re-acquires its instance's (non-reentrant) asyncio lock while already
holding it blocks forever, which the model records as a `Blocking.blocked`
outcome carrying the state mutated so far.
-/

namespace Cloner

/-- Python `dict` lookup `l[key]` / `key in l`, over an association list
in insertion order. -/
def findAssoc? {β : Type} : List (String × β) → String → Option β
  | [], _ => none
  | e :: rest, k => if e.1 = k then some e.2 else findAssoc? rest k

/-- Python `del l[key]`: removes the (unique) entry for `key`; the model
removes the first matching entry. -/
def eraseAssoc {β : Type} : List (String × β) → String → List (String × β)
  | [], _ => []
  | e :: rest, k => if e.1 = k then rest else e :: eraseAssoc rest k

/-- Python `l[key] = v`: updates the entry in place if present, appends at
the end otherwise. -/
def setAssoc {β : Type} : List (String × β) → String → β → List (String × β)
  | [], k, v => [(k, v)]
  | e :: rest, k, v => if e.1 = k then (k, v) :: rest else e :: setAssoc rest k v

/-- Result of a single public operation of a lock-guarded object: either
the operation finishes with a result and a final state, or it blocks
forever (awaiting its instance's already-held asyncio lock) after having
performed the state mutations `s`. -/
inductive Blocking (ρ : Type) (σ : Type) where
  | done (r : ρ) (s : σ)
  | blocked (s : σ)

/-- The state left behind by the operation (also when it never returns). -/
def Blocking.state {ρ σ : Type} : Blocking ρ σ → σ
  | .done _ s => s
  | .blocked s => s

/-- Whether the operation returned control to its caller. -/
def Blocking.completed {ρ σ : Type} : Blocking ρ σ → Bool
  | .done _ _ => true
  | .blocked _ => false

/-! ### `LRUCache` — the memory tier (`src/utils/cache.py`, lines 33-145)

The `OrderedDict` is a list in insertion order: the front is the least
recently used entry, the back the most recently used one.  Each entry is
`(key, value, timestamp)` as stored by `set`.  No method of `LRUCache`
calls another lock-taking method while holding the lock, so all its
operations complete; they are modelled as total functions. -/

structure LRUCache (α : Type) where
  max_size : Nat
  ttl : Nat
  cache : List (String × α × Nat)

/-- Source `LRUCache.get`: miss if absent; an entry past its TTL is deleted and
reported as a miss; a live entry is moved to the most-recently-used end
(keeping its stored timestamp) and returned.  The Python `(hit, value)`
pair is rendered as `Option α`. -/
def LRUCache.get {α : Type} (c : LRUCache α) (key : String) (now : Nat) :
    Option α × LRUCache α :=
  match findAssoc? c.cache key with
  | none => (none, c)
  | some (value, timestamp) =>
    if now - timestamp > c.ttl then
      (none, { c with cache := eraseAssoc c.cache key })
    else
      (some value, { c with cache := eraseAssoc c.cache key ++ [(key, value, timestamp)] })

/-- Source `LRUCache.set`: delete any prior entry for the key, evict the front
(least recently used) entry when at capacity, then append the new entry
at the most-recently-used end with the current timestamp. -/
def LRUCache.set {α : Type} (c : LRUCache α) (key : String) (value : α) (now : Nat) :
    LRUCache α :=
  let c1 := if (findAssoc? c.cache key).isSome then eraseAssoc c.cache key else c.cache
  let c2 := if c.max_size ≤ c1.length then c1.tail else c1
  { c with cache := c2 ++ [(key, value, now)] }

/-- Source `LRUCache.delete`: remove the entry if present, reporting success. -/
def LRUCache.delete {α : Type} (c : LRUCache α) (key : String) : Bool × LRUCache α :=
  if (findAssoc? c.cache key).isSome then
    (true, { c with cache := eraseAssoc c.cache key })
  else
    (false, c)

/-- Source `LRUCache.clear`: drop every entry. -/
def LRUCache.clear {α : Type} (c : LRUCache α) : LRUCache α :=
  { c with cache := [] }

/-- A fresh memory cache, as built by `LRUCache.__init__`. -/
def LRUCache.init (α : Type) (max_size ttl : Nat) : LRUCache α :=
  { max_size := max_size, ttl := ttl, cache := [] }

/-- One public operation on the memory tier, for stating invariants over
arbitrary operation sequences. -/
inductive LRUOp (α : Type) where
  | get (key : String) (now : Nat)
  | set (key : String) (value : α) (now : Nat)
  | delete (key : String)
  | clear

/-- The state reached by running one operation. -/
def LRUCache.applyOp {α : Type} (c : LRUCache α) : LRUOp α → LRUCache α
  | .get key now => (c.get key now).2
  | .set key value now => c.set key value now
  | .delete key => (c.delete key).2
  | .clear => c.clear

/-- The state reached by running a sequence of operations. -/
def LRUCache.runOps {α : Type} (c : LRUCache α) (ops : List (LRUOp α)) : LRUCache α :=
  ops.foldl LRUCache.applyOp c

/-! ### Association-list lemmas -/

theorem findAssoc?_append {β : Type} (l₁ l₂ : List (String × β)) (k : String) :
    findAssoc? (l₁ ++ l₂) k =
      (findAssoc? l₁ k).elim (findAssoc? l₂ k) (fun v => some v) := by
  induction l₁ with
  | nil => simp [findAssoc?]
  | cons e rest ih =>
    by_cases h : e.1 = k <;> simp [findAssoc?, h, ih]

theorem eraseAssoc_of_find?_none {β : Type} (l : List (String × β)) (k : String)
    (h : findAssoc? l k = none) : eraseAssoc l k = l := by
  induction l with
  | nil => rfl
  | cons e rest ih =>
    by_cases he : e.1 = k
    · simp [findAssoc?, he] at h
    · simp [findAssoc?, he] at h
      simp [eraseAssoc, he, ih h]

theorem length_eraseAssoc_le {β : Type} (l : List (String × β)) (k : String) :
    (eraseAssoc l k).length ≤ l.length := by
  induction l with
  | nil => simp [eraseAssoc]
  | cons e rest ih =>
    by_cases he : e.1 = k
    · simp only [eraseAssoc, he, if_true, List.length_cons]
      omega
    · simp only [eraseAssoc, he, if_false, List.length_cons]
      omega

theorem length_eraseAssoc_of_find?_isSome {β : Type} (l : List (String × β)) (k : String)
    (h : (findAssoc? l k).isSome) : (eraseAssoc l k).length + 1 = l.length := by
  induction l with
  | nil => simp [findAssoc?] at h
  | cons e rest ih =>
    by_cases he : e.1 = k
    · simp [eraseAssoc, he]
    · simp [findAssoc?, he] at h
      simp [eraseAssoc, he, ih h]

theorem findAssoc?_eraseAssoc_ne {β : Type} (l : List (String × β)) (k k' : String)
    (h : k' ≠ k) : findAssoc? (eraseAssoc l k) k' = findAssoc? l k' := by
  induction l with
  | nil => rfl
  | cons e rest ih =>
    by_cases he : e.1 = k
    · subst he
      simp [eraseAssoc, findAssoc?, Ne.symm h]
    · by_cases he' : e.1 = k' <;> simp [eraseAssoc, findAssoc?, he, he', ih, h]

theorem mem_of_findAssoc?_isSome {β : Type} (l : List (String × β)) (k : String)
    (h : (findAssoc? l k).isSome) : k ∈ l.map Prod.fst := by
  induction l with
  | nil => simp [findAssoc?] at h
  | cons e rest ih =>
    by_cases he : e.1 = k
    · simp [he]
    · simp only [findAssoc?, he, if_false] at h
      simp [ih h]

theorem findAssoc?_eraseAssoc_self {β : Type} (l : List (String × β)) (k : String)
    (h : (l.map Prod.fst).Nodup) : findAssoc? (eraseAssoc l k) k = none := by
  induction l with
  | nil => rfl
  | cons e rest ih =>
    simp only [List.map_cons, List.nodup_cons] at h
    by_cases he : e.1 = k
    · subst he
      have hred : eraseAssoc (e :: rest) e.1 = rest := by
        simp [eraseAssoc]
      rw [hred]
      cases hfs : findAssoc? rest e.1 with
      | none => rfl
      | some v =>
        exact absurd (mem_of_findAssoc?_isSome rest e.1 (by simp [hfs])) h.1
    · simp only [eraseAssoc, if_neg he, findAssoc?, he, if_false]
      exact ih h.2

theorem findAssoc?_setAssoc_self {β : Type} (l : List (String × β)) (k : String) (v : β) :
    findAssoc? (setAssoc l k v) k = some v := by
  induction l with
  | nil => simp [setAssoc, findAssoc?]
  | cons e rest ih =>
    by_cases he : e.1 = k <;> simp [setAssoc, findAssoc?, he, ih]

theorem findAssoc?_setAssoc_ne {β : Type} (l : List (String × β)) (k k' : String) (v : β)
    (h : k' ≠ k) : findAssoc? (setAssoc l k v) k' = findAssoc? l k' := by
  induction l with
  | nil => simp [setAssoc, findAssoc?, Ne.symm h]
  | cons e rest ih =>
    by_cases he : e.1 = k
    · subst he
      simp [setAssoc, findAssoc?, Ne.symm h]
    · by_cases he' : e.1 = k' <;> simp [setAssoc, findAssoc?, he, he', ih, h]

/-! ### Memory-tier lemmas -/

theorem LRUCache.get_max_size {α : Type} (c : LRUCache α) (key : String) (now : Nat) :
    ((c.get key now).2).max_size = c.max_size := by
  unfold LRUCache.get
  split
  · rfl
  · split <;> rfl

theorem LRUCache.applyOp_max_size {α : Type} (c : LRUCache α) (op : LRUOp α) :
    (c.applyOp op).max_size = c.max_size := by
  cases op with
  | get key now => exact c.get_max_size key now
  | set key value now => rfl
  | delete key =>
    show (c.delete key).2.max_size = c.max_size
    unfold LRUCache.delete
    split <;> rfl
  | clear => rfl

theorem LRUCache.get_length_le {α : Type} (c : LRUCache α) (key : String) (now : Nat) :
    ((c.get key now).2).cache.length ≤ c.cache.length := by
  unfold LRUCache.get
  split
  · exact Nat.le_refl _
  case h_2 value timestamp heq =>
    split
    · exact length_eraseAssoc_le _ _
    · simp only [List.length_append, List.length_cons, List.length_nil]
      have := length_eraseAssoc_of_find?_isSome c.cache key (by simp [heq])
      omega

theorem LRUCache.set_length_le {α : Type} (c : LRUCache α) (key : String) (value : α)
    (now : Nat) (h : 0 < c.max_size) (hc : c.cache.length ≤ c.max_size) :
    (c.set key value now).cache.length ≤ c.max_size := by
  simp only [LRUCache.set, List.length_append, List.length_cons, List.length_nil]
  split
  case isTrue hk =>
    have h1 := length_eraseAssoc_of_find?_isSome c.cache key hk
    split
    case isTrue hm =>
      simp only [List.length_tail]
      omega
    case isFalse hm => omega
  case isFalse hk =>
    split
    case isTrue hm =>
      simp only [List.length_tail]
      omega
    case isFalse hm => omega

theorem LRUCache.applyOp_length {α : Type} (c : LRUCache α) (op : LRUOp α)
    (h : 0 < c.max_size) (hc : c.cache.length ≤ c.max_size) :
    (c.applyOp op).cache.length ≤ c.max_size := by
  cases op with
  | get key now => exact Nat.le_trans (c.get_length_le key now) hc
  | set key value now => exact c.set_length_le key value now h hc
  | delete key =>
    show (c.delete key).2.cache.length ≤ c.max_size
    unfold LRUCache.delete
    split
    · exact Nat.le_trans (length_eraseAssoc_le _ _) hc
    · exact hc
  | clear => exact Nat.zero_le _

theorem LRUCache.runOps_length {α : Type} (ops : List (LRUOp α)) (c : LRUCache α)
    (h : 0 < c.max_size) (hc : c.cache.length ≤ c.max_size) :
    (c.runOps ops).max_size = c.max_size ∧ (c.runOps ops).cache.length ≤ c.max_size := by
  induction ops generalizing c with
  | nil => exact ⟨rfl, hc⟩
  | cons op rest ih =>
    have hm := c.applyOp_max_size op
    have hl := c.applyOp_length op h hc
    have := ih (c.applyOp op) (hm ▸ h) (hm ▸ hl)
    exact ⟨hm ▸ this.1, hm ▸ this.2⟩

/-- C6: for a memory cache of capacity `n > 0`, any sequence of
`get`/`set`/`delete`/`clear` operations starting from a fresh cache keeps
the number of stored entries at most `n`; and a `set` of a key not yet
present, when the store holds exactly `n` entries, drops exactly the
single least-recently-used (front) entry and appends the new entry at the
most-recently-used end. -/
theorem lruCache_bounded_and_evicts_lru {α : Type} (n ttl : Nat) (hn : 0 < n) :
    (∀ ops : List (LRUOp α), ((LRUCache.init α n ttl).runOps ops).cache.length ≤ n) ∧
    (∀ (c : LRUCache α) (key : String) (v : α) (now : Nat),
      c.max_size = n → c.cache.length = n → findAssoc? c.cache key = none →
      (c.set key v now).cache = c.cache.tail ++ [(key, v, now)]) := by
  constructor
  · intro ops
    exact ((LRUCache.init α n ttl).runOps_length ops hn (Nat.zero_le _)).2
  · intro c key v now hmax hlen hnone
    simp [LRUCache.set, hnone, hmax, hlen]

/-- Witness for C6 at `n = 2`. -/
theorem lruCache_bounded_and_evicts_lru_witness :
    0 < 2 ∧
    ((∀ ops : List (LRUOp Nat), ((LRUCache.init Nat 2 100).runOps ops).cache.length ≤ 2) ∧
    (∀ (c : LRUCache Nat) (key : String) (v : Nat) (now : Nat),
      c.max_size = 2 → c.cache.length = 2 → findAssoc? c.cache key = none →
      (c.set key v now).cache = c.cache.tail ++ [(key, v, now)])) :=
  ⟨by decide, lruCache_bounded_and_evicts_lru 2 100 (by decide)⟩

/-- C10: a `set` on a key already present in a memory cache that holds
exactly `max_size` entries evicts nothing: the key's entry is replaced
(and moved to the most-recently-used end), the entry count stays
`max_size`, and every other key still maps to its previous value. -/
theorem lruCache_set_existing_no_eviction {α : Type} (c : LRUCache α) (key : String)
    (v : α) (now : Nat)
    (hnd : (c.cache.map Prod.fst).Nodup)
    (hfull : c.cache.length = c.max_size)
    (hmem : (findAssoc? c.cache key).isSome) :
    (c.set key v now).cache.length = c.max_size ∧
    findAssoc? (c.set key v now).cache key = some (v, now) ∧
    (∀ k', k' ≠ key → findAssoc? (c.set key v now).cache k' = findAssoc? c.cache k') := by
  have h1 := length_eraseAssoc_of_find?_isSome c.cache key hmem
  have hpos : 0 < c.cache.length := by
    cases hl : c.cache with
    | nil => rw [hl] at hmem; simp [findAssoc?] at hmem
    | cons e rest => simp [hl]
  have hset : (c.set key v now).cache = eraseAssoc c.cache key ++ [(key, v, now)] := by
    simp only [LRUCache.set, hmem, if_true]
    have : ¬ c.max_size ≤ (eraseAssoc c.cache key).length := by omega
    simp [this]
  refine ⟨?_, ?_, ?_⟩
  · rw [hset]
    simp only [List.length_append, List.length_cons, List.length_nil]
    omega
  · rw [hset, findAssoc?_append, findAssoc?_eraseAssoc_self c.cache key hnd]
    simp [findAssoc?]
  · intro k' hk'
    rw [hset, findAssoc?_append, findAssoc?_eraseAssoc_ne c.cache key k' hk']
    cases hfa : findAssoc? c.cache k' <;> simp [findAssoc?, hk', Ne.symm hk']

/-- Witness for C10: a full two-entry cache, overwriting key `a`. -/
theorem lruCache_set_existing_no_eviction_witness :
    ((([("a", (1 : Nat), 0), ("b", 2, 0)].map Prod.fst).Nodup) ∧
      ([("a", (1 : Nat), 0), ("b", 2, 0)] : List (String × Nat × Nat)).length = 2 ∧
      (findAssoc? [("a", (1 : Nat), 0), ("b", 2, 0)] "a").isSome) ∧
    (((⟨2, 100, [("a", (1 : Nat), 0), ("b", 2, 0)]⟩ : LRUCache Nat).set "a" 7 5).cache.length = 2 ∧
    findAssoc? ((⟨2, 100, [("a", (1 : Nat), 0), ("b", 2, 0)]⟩ : LRUCache Nat).set "a" 7 5).cache "a" = some (7, 5) ∧
    (∀ k', k' ≠ "a" →
      findAssoc? ((⟨2, 100, [("a", (1 : Nat), 0), ("b", 2, 0)]⟩ : LRUCache Nat).set "a" 7 5).cache k' =
      findAssoc? [("a", (1 : Nat), 0), ("b", 2, 0)] k')) :=
  ⟨⟨by decide, by decide, by decide⟩,
    lruCache_set_existing_no_eviction ⟨2, 100, [("a", 1, 0), ("b", 2, 0)]⟩ "a" 7 5
      (by decide) (by decide) (by decide)⟩

/-! ### `DiskCache` — the disk tier (`src/utils/cache.py`, lines 148-409)

`_metadata` maps each key to its stored timestamp (the blob path is
derived deterministically from the key's hash, so the blob files are
modelled as a second map `store` from key to value).  The instance's
asyncio lock is non-reentrant: `delete` acquires it, so the internal
calls `get → delete` (expired entry), `set → _cleanup_expired → delete`
and `set → _enforce_size_limit → delete` re-acquire a lock the operation
already holds and block forever; each method takes `locked`, whether the
current task already holds the instance lock. -/

structure DiskCache (α : Type) where
  max_size : Nat
  ttl : Nat
  metadata : List (String × Nat)
  store : List (String × α)

/-- Source `DiskCache.delete`: acquires the instance lock, removes the blob file
and the index entry.  Called with the lock already held it blocks forever
before mutating anything. -/
def DiskCache.delete {α : Type} (locked : Bool) (c : DiskCache α) (key : String) :
    Blocking Bool (DiskCache α) :=
  if locked then .blocked c
  else if (findAssoc? c.metadata key).isSome then
    .done true { c with metadata := eraseAssoc c.metadata key,
                        store := eraseAssoc c.store key }
  else
    .done false c

/-- Source `DiskCache._cleanup_expired`: runs with the lock already held (called
from `set`); it iterates the expired keys calling `self.delete`, whose
first call re-acquires the held lock and blocks. -/
def DiskCache.cleanupExpired {α : Type} (c : DiskCache α) (now : Nat) :
    Blocking Unit (DiskCache α) :=
  let expired := c.metadata.filter (fun e => now - e.2 > c.ttl)
  match expired with
  | [] => .done () c
  | _ :: _ => .blocked c

/-- Source `DiskCache._enforce_size_limit`: runs with the lock already held
(called from `set`); when the index exceeds `max_size` it calls
`self.delete` on the oldest keys, blocking at the first call. -/
def DiskCache.enforceSizeLimit {α : Type} (c : DiskCache α) :
    Blocking Unit (DiskCache α) :=
  if c.metadata.length > c.max_size then .blocked c else .done () c

/-- Source `DiskCache.get`: miss when the key is not in the index; an entry past
its TTL triggers `await self.delete(key)` under the held lock, blocking
forever; a missing blob file removes the index entry and reports a miss;
otherwise the blob is read, the entry's timestamp refreshed to `now`
(the approximate-LRU recency update) and the value returned. -/
def DiskCache.get {α : Type} (locked : Bool) (c : DiskCache α) (key : String) (now : Nat) :
    Blocking (Option α) (DiskCache α) :=
  if locked then .blocked c
  else
    match findAssoc? c.metadata key with
    | none => .done none c
    | some timestamp =>
      if now - timestamp > c.ttl then
        .blocked c
      else
        match findAssoc? c.store key with
        | none => .done none { c with metadata := eraseAssoc c.metadata key }
        | some value => .done (some value) { c with metadata := setAssoc c.metadata key now }

/-- Source `DiskCache.set`: under the lock, first `_cleanup_expired` (which
blocks if any entry is expired), then write the blob, record
`{timestamp: now}` in the index, and finally `_enforce_size_limit`
(which blocks if the index now exceeds `max_size`). -/
def DiskCache.set {α : Type} (locked : Bool) (c : DiskCache α) (key : String) (value : α)
    (now : Nat) : Blocking Unit (DiskCache α) :=
  if locked then .blocked c
  else
    match c.cleanupExpired now with
    | .blocked c1 => .blocked c1
    | .done _ c1 =>
      let c2 := { c1 with store := setAssoc c1.store key value,
                          metadata := setAssoc c1.metadata key now }
      match c2.enforceSizeLimit with
      | .blocked c3 => .blocked c3
      | .done _ c3 => .done () c3

/-! ### `CacheManager` — the tiered cache (`src/utils/cache.py`, lines 412-554) -/

structure CacheManager (α : Type) where
  use_memory_cache : Bool
  use_disk_cache : Bool
  memory_cache : LRUCache α
  disk_cache : DiskCache α

/-- Disk part of `CacheManager.get`: on a disk hit the value is promoted
into the memory tier before being returned. -/
def CacheManager.getDisk {α : Type} (m : CacheManager α) (key : String) (now : Nat) :
    Blocking (Option α) (CacheManager α) :=
  if m.use_disk_cache then
    match m.disk_cache.get false key now with
    | .blocked dc' => .blocked { m with disk_cache := dc' }
    | .done none dc' => .done none { m with disk_cache := dc' }
    | .done (some value) dc' =>
      let m1 := { m with disk_cache := dc' }
      if m1.use_memory_cache then
        .done (some value) { m1 with memory_cache := m1.memory_cache.set key value now }
      else
        .done (some value) m1
  else
    .done none m

/-- Source `CacheManager.get`: memory tier first; on a memory hit return
immediately, otherwise consult the disk tier (promoting on a hit). -/
def CacheManager.get {α : Type} (m : CacheManager α) (key : String) (now : Nat) :
    Blocking (Option α) (CacheManager α) :=
  if m.use_memory_cache then
    match m.memory_cache.get key now with
    | (some value, mc') => .done (some value) { m with memory_cache := mc' }
    | (none, mc') => CacheManager.getDisk { m with memory_cache := mc' } key now
  else
    CacheManager.getDisk m key now

/-- Source `CacheManager.set`: write to every enabled tier (memory first). -/
def CacheManager.set {α : Type} (m : CacheManager α) (key : String) (value : α)
    (now : Nat) : Blocking Unit (CacheManager α) :=
  let m1 := if m.use_memory_cache then
    { m with memory_cache := m.memory_cache.set key value now } else m
  if m1.use_disk_cache then
    match m1.disk_cache.set false key value now with
    | .blocked dc' => .blocked { m1 with disk_cache := dc' }
    | .done _ dc' => .done () { m1 with disk_cache := dc' }
  else
    .done () m1

/-! ### Tiered-cache lemmas: promotion and timestamp refresh -/

theorem findAssoc?_tail_none {β : Type} (l : List (String × β)) (k : String)
    (h : findAssoc? l k = none) : findAssoc? l.tail k = none := by
  cases l with
  | nil => rfl
  | cons e rest =>
    by_cases he : e.1 = k
    · simp [findAssoc?, he] at h
    · simpa [findAssoc?, he] using h

theorem LRUCache.findAssoc?_set_self_of_none {α : Type} (c : LRUCache α) (key : String)
    (v : α) (now : Nat) (h : findAssoc? c.cache key = none) :
    findAssoc? (c.set key v now).cache key = some (v, now) := by
  simp only [LRUCache.set, h, Option.isSome_none, Bool.false_eq_true, if_false]
  split
  · rw [findAssoc?_append, findAssoc?_tail_none c.cache key h]
    simp [findAssoc?]
  · rw [findAssoc?_append, h]
    simp [findAssoc?]

theorem LRUCache.get_miss_not_mem {α : Type} (c : LRUCache α) (key : String) (now : Nat)
    (hnd : (c.cache.map Prod.fst).Nodup) (h : (c.get key now).1 = none) :
    findAssoc? ((c.get key now).2).cache key = none := by
  cases hfa : findAssoc? c.cache key with
  | none =>
    unfold LRUCache.get
    simp only [hfa]
  | some p =>
    obtain ⟨v, ts⟩ := p
    unfold LRUCache.get at h ⊢
    simp only [hfa] at h ⊢
    by_cases hexp : now - ts > c.ttl
    · simp only [hexp, if_true]
      exact findAssoc?_eraseAssoc_self c.cache key hnd
    · simp [hexp] at h

/-- C7: with both tiers enabled, a memory miss followed by a disk hit on a
non-expired entry `(k, v)` returns the value and promotes it into the
memory tier: the resulting memory tier maps `k` to `v` (timestamped at
the read instant), so an immediately following direct memory-tier `get`
hits. -/
theorem cacheManager_disk_hit_promotes {α : Type} (m : CacheManager α) (key : String)
    (v : α) (ts now : Nat)
    (hnd : (m.memory_cache.cache.map Prod.fst).Nodup)
    (hmem : m.use_memory_cache = true)
    (hdisk : m.use_disk_cache = true)
    (hmiss : (m.memory_cache.get key now).1 = none)
    (hts : findAssoc? m.disk_cache.metadata key = some ts)
    (hlive : ¬ now - ts > m.disk_cache.ttl)
    (hstore : findAssoc? m.disk_cache.store key = some v) :
    ∃ m' : CacheManager α,
      m.get key now = .done (some v) m' ∧
      findAssoc? m'.memory_cache.cache key = some (v, now) ∧
      (m'.memory_cache.get key now).1 = some v := by
  rcases hg : m.memory_cache.get key now with ⟨r, mc'⟩
  have hr : r = none := by
    have h2 := hmiss
    rw [hg] at h2
    exact h2
  subst hr
  have hnone : findAssoc? mc'.cache key = none := by
    have h2 := LRUCache.get_miss_not_mem m.memory_cache key now hnd hmiss
    rw [hg] at h2
    exact h2
  have hdget : m.disk_cache.get false key now =
      .done (some v) { m.disk_cache with metadata := setAssoc m.disk_cache.metadata key now } := by
    unfold DiskCache.get
    simp [hts, hlive, hstore]
  refine ⟨{ m with
      memory_cache := mc'.set key v now,
      disk_cache := { m.disk_cache with metadata := setAssoc m.disk_cache.metadata key now } },
    ?_, ?_, ?_⟩
  · unfold CacheManager.get CacheManager.getDisk
    rw [hg]
    simp only [hmem, if_true]
    rw [show ({ m with memory_cache := mc' } : CacheManager α).disk_cache.get false key now =
        .done (some v) { m.disk_cache with metadata := setAssoc m.disk_cache.metadata key now }
      from hdget]
    simp [hdisk, hmem]
  · simpa using LRUCache.findAssoc?_set_self_of_none mc' key v now hnone
  · have hfind := LRUCache.findAssoc?_set_self_of_none mc' key v now hnone
    simp only [LRUCache.get]
    simp only at hfind
    rw [hfind]
    simp [Nat.sub_self]

/-- Witness for C7: memory tier empty, disk tier holding `("k", 42)`
written at instant 0, read at instant 5. -/
theorem cacheManager_disk_hit_promotes_witness :
    (((⟨2, 10, []⟩ : LRUCache Nat).cache.map Prod.fst).Nodup ∧
      ((⟨2, 10, []⟩ : LRUCache Nat).get "k" 5).1 = none ∧
      findAssoc? (⟨10, 100, [("k", 0)], [("k", 42)]⟩ : DiskCache Nat).metadata "k" = some 0 ∧
      ¬ 5 - 0 > (⟨10, 100, [("k", 0)], [("k", 42)]⟩ : DiskCache Nat).ttl ∧
      findAssoc? (⟨10, 100, [("k", 0)], [("k", 42)]⟩ : DiskCache Nat).store "k" = some 42) ∧
    (∃ m' : CacheManager Nat,
      (⟨true, true, ⟨2, 10, []⟩, ⟨10, 100, [("k", 0)], [("k", 42)]⟩⟩ : CacheManager Nat).get "k" 5 =
        .done (some 42) m' ∧
      findAssoc? m'.memory_cache.cache "k" = some (42, 5) ∧
      (m'.memory_cache.get "k" 5).1 = some 42) :=
  ⟨⟨by decide, by decide, by decide, by decide, by decide⟩,
    cacheManager_disk_hit_promotes ⟨true, true, ⟨2, 10, []⟩, ⟨10, 100, [("k", 0)], [("k", 42)]⟩⟩
      "k" 42 0 5 (by decide) rfl rfl (by decide) (by decide) (by decide) (by decide)⟩

/-- C9 counterexample: in the memory tier a successful `get` does NOT set
the stored timestamp to the read instant.  With `ttl = 10` and an entry
written at instant 0, a hit at instant 5 leaves the stored timestamp at 0
(not 5), and a following `get` at instant 11 — only 6 after the last
successful read — already misses: expiry is measured from the last write. -/
theorem lruCache_get_does_not_refresh_timestamp :
    (((⟨2, 10, [("a", 0, 0)]⟩ : LRUCache Nat).get "a" 5).1 = some 0 ∧
     ((⟨2, 10, [("a", 0, 0)]⟩ : LRUCache Nat).get "a" 5).2.cache = [("a", 0, 0)]) ∧
    ((((⟨2, 10, [("a", 0, 0)]⟩ : LRUCache Nat).get "a" 5).2.get "a" 11).1 = none) :=
  ⟨⟨by decide, by decide⟩, by decide⟩

/-- C9 (amended): only the disk tier refreshes the stored timestamp on a
successful read (so disk TTL expiry is measured from the last successful
read); the memory tier moves a hit entry to the most-recently-used end
but keeps its last-write timestamp, so memory TTL expiry is measured from
the last write. -/
theorem cache_get_timestamp_refresh {α : Type} (dc : DiskCache α) (mc : LRUCache α)
    (key : String) (ts tsm now : Nat) (v w : α)
    (hts : findAssoc? dc.metadata key = some ts)
    (hlive : ¬ now - ts > dc.ttl)
    (hstore : findAssoc? dc.store key = some v)
    (hmc : findAssoc? mc.cache key = some (w, tsm))
    (hmlive : ¬ now - tsm > mc.ttl) :
    (dc.get false key now =
      .done (some v) { dc with metadata := setAssoc dc.metadata key now } ∧
      findAssoc? (setAssoc dc.metadata key now) key = some now) ∧
    ((mc.get key now).1 = some w ∧
      (mc.get key now).2.cache = eraseAssoc mc.cache key ++ [(key, w, tsm)]) := by
  refine ⟨⟨?_, ?_⟩, ?_, ?_⟩
  · unfold DiskCache.get
    simp [hts, hlive, hstore]
  · exact findAssoc?_setAssoc_self dc.metadata key now
  · unfold LRUCache.get
    simp [hmc, hmlive]
  · unfold LRUCache.get
    simp [hmc, hmlive]

/-- Witness for the amended C9. -/
theorem cache_get_timestamp_refresh_witness :
    (findAssoc? (⟨10, 100, [("k", 0)], [("k", 42)]⟩ : DiskCache Nat).metadata "k" = some 0 ∧
      ¬ 5 - 0 > (⟨10, 100, [("k", 0)], [("k", 42)]⟩ : DiskCache Nat).ttl ∧
      findAssoc? (⟨10, 100, [("k", 0)], [("k", 42)]⟩ : DiskCache Nat).store "k" = some 42 ∧
      findAssoc? (⟨2, 10, [("k", 7, 1)]⟩ : LRUCache Nat).cache "k" = some (7, 1) ∧
      ¬ 5 - 1 > (⟨2, 10, [("k", 7, 1)]⟩ : LRUCache Nat).ttl) ∧
    (((⟨10, 100, [("k", 0)], [("k", 42)]⟩ : DiskCache Nat).get false "k" 5 =
      .done (some 42) { (⟨10, 100, [("k", 0)], [("k", 42)]⟩ : DiskCache Nat) with
        metadata := setAssoc [("k", 0)] "k" 5 } ∧
      findAssoc? (setAssoc [("k", 0)] "k" 5) "k" = some 5) ∧
    (((⟨2, 10, [("k", 7, 1)]⟩ : LRUCache Nat).get "k" 5).1 = some 7 ∧
      ((⟨2, 10, [("k", 7, 1)]⟩ : LRUCache Nat).get "k" 5).2.cache =
        eraseAssoc [("k", 7, 1)] "k" ++ [("k", 7, 1)])) :=
  ⟨⟨by decide, by decide, by decide, by decide, by decide⟩,
    cache_get_timestamp_refresh ⟨10, 100, [("k", 0)], [("k", 42)]⟩ ⟨2, 10, [("k", 7, 1)]⟩
      "k" 0 1 5 42 7 (by decide) (by decide) (by decide) (by decide) (by decide)⟩

/-! ### `async_retry` — the retry executor (`src/utils/retry.py`, lines 28-93)

An invocation behaviour is a function `f : Nat → Except ε ρ` giving, for
each invocation number `i ≥ 1`, either the exception raised (`error`) or
the result returned (`ok`).  A trace records the final outcome (the value
returned or the exception propagated), how many times the operation was
invoked, and the back-off delays slept, in order. -/

structure RetryPolicy (ε ρ : Type) where
  retry_count : Nat
  base_delay : ℚ
  max_delay : ℚ
  backoff_factor : ℚ
  retry_exceptions : ε → Bool
  retry_on_result : Option (ρ → Bool)

/-- Source `delay = min(base_delay * (backoff_factor ** (attempt - 1)), max_delay)`. -/
def retryDelay {ε ρ : Type} (p : RetryPolicy ε ρ) (attempt : Nat) : ℚ :=
  min (p.base_delay * p.backoff_factor ^ (attempt - 1)) p.max_delay

structure RetryTrace (ε ρ : Type) where
  outcome : Except ε ρ
  invocations : Nat
  delays : List ℚ

/-- One pass of the `while attempt <= retry_count` loop of `async_retry`.
`i` is the attempt number of the current invocation (the value of
`attempt` just after `attempt += 1`); `fuel = retry_count + 1 - i` counts
how many further invocations the loop still allows, so `fuel > 0` is
exactly the source's `attempt <= retry_count` test.  A retryable
exception with attempts left, or a result flagged by `retry_on_result`
with attempts left, sleeps `retryDelay` and loops; with no attempts left
the invocation's own outcome is final — the exhausted (or non-retryable)
exception is re-raised and the result, flagged or not, is returned
as-is — which the `fuel = 0` branch returns uniformly. -/
def asyncRetryGo {ε ρ : Type} (p : RetryPolicy ε ρ) (f : Nat → Except ε ρ) (i : Nat) :
    Nat → RetryTrace ε ρ
  | 0 =>
    match f i with
    | .ok result => ⟨.ok result, 1, []⟩
    | .error e => ⟨.error e, 1, []⟩
  | fuel' + 1 =>
    match f i with
    | .ok result =>
      match p.retry_on_result with
      | some pred =>
        if pred result then
          let rest := asyncRetryGo p f (i + 1) fuel'
          ⟨rest.outcome, rest.invocations + 1, retryDelay p i :: rest.delays⟩
        else ⟨.ok result, 1, []⟩
      | none => ⟨.ok result, 1, []⟩
    | .error e =>
      if p.retry_exceptions e then
        let rest := asyncRetryGo p f (i + 1) fuel'
        ⟨rest.outcome, rest.invocations + 1, retryDelay p i :: rest.delays⟩
      else ⟨.error e, 1, []⟩

/-- Source `async_retry`: the loop starts at `attempt = 1` with `retry_count`
further invocations allowed. -/
def asyncRetry {ε ρ : Type} (p : RetryPolicy ε ρ) (f : Nat → Except ε ρ) :
    RetryTrace ε ρ :=
  asyncRetryGo p f 1 p.retry_count

/-- Invocation `i` fails in a retryable way: it raises an exception whose
kind lies in `retry_exceptions`, or it returns a result flagged by the
configured `retry_on_result` predicate. -/
def RetryFailure {ε ρ : Type} (p : RetryPolicy ε ρ) (f : Nat → Except ε ρ) (i : Nat) :
    Prop :=
  (∃ e, f i = .error e ∧ p.retry_exceptions e = true) ∨
  (∃ pred r, p.retry_on_result = some pred ∧ f i = .ok r ∧ pred r = true)

theorem asyncRetryGo_allfail {ε ρ : Type} (p : RetryPolicy ε ρ) (f : Nat → Except ε ρ) :
    ∀ fuel i, (∀ j, i ≤ j → j ≤ i + fuel → RetryFailure p f j) →
    (asyncRetryGo p f i fuel).invocations = fuel + 1 ∧
    (asyncRetryGo p f i fuel).outcome = f (i + fuel) := by
  intro fuel
  induction fuel with
  | zero =>
    intro i h
    unfold asyncRetryGo
    cases he : f i with
    | ok r => simp [← he]
    | error e => simp [← he]
  | succ fuel ih =>
    intro i h
    have hrec := ih (i + 1) (fun j h1 h2 => h j (by omega) (by omega))
    rcases h i (Nat.le_refl i) (by omega) with ⟨e, he, hr⟩ | ⟨pred, r, hp, hr, hpr⟩
    · unfold asyncRetryGo
      rw [he]
      simp only [hr, if_true]
      refine ⟨by rw [hrec.1], ?_⟩
      rw [hrec.2]
      congr 1
      omega
    · unfold asyncRetryGo
      rw [hr, hp]
      simp only [hpr, if_true]
      refine ⟨by rw [hrec.1], ?_⟩
      rw [hrec.2]
      congr 1
      omega

/-- C3: an operation that fails retryably on every invocation (raising an
exception kind in `retry_exceptions`, or returning a result flagged by
`retry_on_result`) is invoked exactly `retry_count + 1` times, and the
final invocation's outcome is what propagates: its exception is re-raised,
or its result returned as-is. -/
theorem asyncRetry_exhausts_after_retry_count_plus_one {ε ρ : Type}
    (p : RetryPolicy ε ρ) (f : Nat → Except ε ρ)
    (h : ∀ j, 1 ≤ j → j ≤ p.retry_count + 1 → RetryFailure p f j) :
    (asyncRetry p f).invocations = p.retry_count + 1 ∧
    (asyncRetry p f).outcome = f (p.retry_count + 1) := by
  have hgo := asyncRetryGo_allfail p f p.retry_count 1 (fun j h1 h2 => h j h1 (by omega))
  refine ⟨hgo.1, ?_⟩
  rw [asyncRetry, hgo.2]
  congr 1
  omega

/-- Witness for C3: `retry_count = 2`, an operation that always raises a
retryable exception is invoked 3 times and the last exception propagates. -/
theorem asyncRetry_exhausts_after_retry_count_plus_one_witness :
    (∀ j, 1 ≤ j → j ≤ (2 : Nat) + 1 →
      RetryFailure (ε := Unit) (ρ := Unit) ⟨2, 1, 10, 2, fun _ => true, none⟩
        (fun _ => .error ()) j) ∧
    ((asyncRetry (ε := Unit) (ρ := Unit) ⟨2, 1, 10, 2, fun _ => true, none⟩
        (fun _ => .error ())).invocations = 2 + 1 ∧
     (asyncRetry (ε := Unit) (ρ := Unit) ⟨2, 1, 10, 2, fun _ => true, none⟩
        (fun _ => .error ())).outcome = (fun _ => Except.error ()) (2 + 1)) :=
  ⟨fun _ _ _ => Or.inl ⟨(), rfl, rfl⟩,
    asyncRetry_exhausts_after_retry_count_plus_one ⟨2, 1, 10, 2, fun _ => true, none⟩
      (fun _ => .error ()) (fun _ _ _ => Or.inl ⟨(), rfl, rfl⟩)⟩

theorem asyncRetryGo_delays {ε ρ : Type} (p : RetryPolicy ε ρ) (f : Nat → Except ε ρ) :
    ∀ fuel i,
      (asyncRetryGo p f i fuel).delays.length ≤ fuel ∧
      ∀ j, j < (asyncRetryGo p f i fuel).delays.length →
        (asyncRetryGo p f i fuel).delays.getD j 0 = retryDelay p (i + j) := by
  intro fuel
  induction fuel with
  | zero =>
    intro i
    unfold asyncRetryGo
    cases hf : f i with
    | ok r => simp
    | error e => simp
  | succ fuel ih =>
    intro i
    have hrec := ih (i + 1)
    unfold asyncRetryGo
    cases hf : f i with
    | ok r =>
      cases hp : p.retry_on_result with
      | none => simp
      | some pred =>
        by_cases hpr : pred r
        · simp only [hpr, if_true]
          refine ⟨by simp [Nat.succ_le_succ hrec.1], ?_⟩
          intro j hj
          cases j with
          | zero => simp [retryDelay]
          | succ j' =>
            simp only [List.length_cons, Nat.succ_lt_succ_iff] at hj
            have := hrec.2 j' hj
            simp only [List.getD_cons_succ]
            rw [this]
            congr 1
            omega
        · simp [hpr]
    | error e =>
      by_cases hr : p.retry_exceptions e
      · simp only [hr, if_true]
        refine ⟨by simp [Nat.succ_le_succ hrec.1], ?_⟩
        intro j hj
        cases j with
        | zero => simp [retryDelay]
        | succ j' =>
          simp only [List.length_cons, Nat.succ_lt_succ_iff] at hj
          have := hrec.2 j' hj
          simp only [List.getD_cons_succ]
          rw [this]
          congr 1
          omega
      · simp [hr]

/-- C5: for any behaviour of the operation, the delay slept before retry
number `i + 1` (the entry at 0-based position `i` of the delay list)
equals `min(base_delay * backoff_factor ^ i, max_delay)` — in the claim's
1-based numbering, retry `i` sleeps
`min(base_delay * backoff_factor ^ (i - 1), max_delay)`.  The statement
quantifies over every behaviour `f`, so the delay is the same whether the
retry was triggered by a retryable exception or by `retry_on_result`, and
depends only on the policy and the attempt index.  At most `retry_count`
delays are ever slept. -/
theorem asyncRetry_delay_schedule {ε ρ : Type} (p : RetryPolicy ε ρ)
    (f : Nat → Except ε ρ) (i : Nat) (hi : i < (asyncRetry p f).delays.length) :
    (asyncRetry p f).delays.getD i 0 =
      min (p.base_delay * p.backoff_factor ^ i) p.max_delay ∧
    (asyncRetry p f).delays.length ≤ p.retry_count := by
  have h := asyncRetryGo_delays p f p.retry_count 1
  rw [asyncRetry] at hi
  constructor
  · have h2 := h.2 i hi
    rw [asyncRetry, h2]
    simp [retryDelay, Nat.add_sub_cancel_left]
  · rw [asyncRetry]
    exact h.1

/-- Witness for C5: with `retry_count = 2`, `base_delay = 1`,
`backoff_factor = 2`, `max_delay = 10` and an always-failing operation,
the second delay is `min(1 * 2^1, 10) = 2`. -/
theorem asyncRetry_delay_schedule_witness :
    1 < (asyncRetry (ε := Unit) (ρ := Unit) ⟨2, 1, 10, 2, fun _ => true, none⟩
        (fun _ => .error ())).delays.length ∧
    ((asyncRetry (ε := Unit) (ρ := Unit) ⟨2, 1, 10, 2, fun _ => true, none⟩
        (fun _ => .error ())).delays.getD 1 0 = min ((1 : ℚ) * 2 ^ 1) 10 ∧
     (asyncRetry (ε := Unit) (ρ := Unit) ⟨2, 1, 10, 2, fun _ => true, none⟩
        (fun _ => .error ())).delays.length ≤ 2) :=
  ⟨by decide,
    asyncRetry_delay_schedule ⟨2, 1, 10, 2, fun _ => true, none⟩ (fun _ => .error ()) 1
      (by decide)⟩

/-! ### `ApiMonitor` — the usage governor (`src/api/api_monitor.py`)

The per-service `ApiUsageData` record is translated field by field; the
time-bucket keys produced by `strftime` and the numeric instants are
supplied through a `Clock`.  Money is modelled as `ℚ`.  Every mutating
operation of the monitor ends in `await self.save_data()` while already
holding the instance's non-reentrant asyncio lock, which `save_data`
itself acquires — so those operations block forever after mutating the
in-memory state. -/

structure Tokens where
  prompt : Nat
  completion : Nat
  total : Nat
deriving DecidableEq

/-- The optional-keyed `tokens` dict accepted by `record_api_call`. -/
structure TokenInput where
  prompt : Option Nat
  completion : Option Nat
  total : Option Nat
deriving DecidableEq

structure EndpointBucket where
  calls : Nat
  success : Nat
  errors : Nat
deriving DecidableEq

structure HourBucket where
  calls : Nat
  success : Nat
  errors : Nat
  endpoints : List (String × EndpointBucket)
deriving DecidableEq

structure DayBucket where
  calls : Nat
  success : Nat
  errors : Nat
  cost : ℚ
deriving DecidableEq

structure MonthBucket where
  calls : Nat
  success : Nat
  errors : Nat
  cost : ℚ
  tokens : Tokens
deriving DecidableEq

structure Limits where
  hourly : Option Nat
  daily : Option Nat
  monthly : Option Nat
  total : Option Nat
deriving DecidableEq

structure Costs where
  total_cost : ℚ
  cost_per_call : ℚ
  monthly_budget : Option ℚ
deriving DecidableEq

/-- The `last_call` metadata entry stored when `record_api_call` receives
a non-empty `metadata` dict. -/
structure LastCall where
  time : Nat
  endpoint : String
  success : Bool
  duration : Option ℚ
  extra : List (String × String)
deriving DecidableEq

structure ApiUsageData where
  hourly_usage : List (String × HourBucket)
  daily_usage : List (String × DayBucket)
  monthly_usage : List (String × MonthBucket)
  limits : Limits
  costs : Costs
  total_calls : Nat
  total_tokens : Tokens
  success_count : Nat
  error_count : Nat
  last_updated : Nat
  api_type : String
  metadata : Option LastCall
deriving DecidableEq

/-- Source `ApiUsageData.__init__`: empty buckets, no limits, zero costs and
counters, `last_updated = now`. -/
def ApiUsageData.init (now : Nat) : ApiUsageData :=
  { hourly_usage := [], daily_usage := [], monthly_usage := [],
    limits := ⟨none, none, none, none⟩,
    costs := ⟨0, 0, none⟩,
    total_calls := 0,
    total_tokens := ⟨0, 0, 0⟩,
    success_count := 0,
    error_count := 0,
    last_updated := now,
    api_type := "",
    metadata := none }

/-- The instants a monitor operation reads from the wall clock: the
`strftime` hour/day/month bucket keys and the numeric instant used for
`last_updated` and the autosave test. -/
structure Clock where
  hour_key : String
  day_key : String
  month_key : String
  instant : Nat
deriving DecidableEq

structure ApiMonitor where
  usage_data : List (String × ApiUsageData)
  auto_save : Bool
  save_interval : Nat
  last_save_time : Nat
deriving DecidableEq

/-- Source `ApiMonitor.save_data` opens with `async with self._lock`; called
while the current task already holds the instance lock it blocks forever
(the per-service file writes are external I/O and not modelled). -/
def ApiMonitor.save_data (locked : Bool) (m : ApiMonitor) : Blocking Unit ApiMonitor :=
  if locked then .blocked m else .done () m

/-- Fetch the service record, creating a fresh one with
`api_type := api_name` when absent (as `record_api_call`, `set_limit` and
`set_cost_info` all do). -/
def ApiMonitor.getOrCreate (m : ApiMonitor) (api_name : String) (now : Nat) : ApiUsageData :=
  match findAssoc? m.usage_data api_name with
  | some d => d
  | none => { ApiUsageData.init now with api_type := api_name }

/-- Hour-bucket update of `record_api_call`: bump the (lazily created)
current hour bucket and its per-endpoint counters. -/
def ApiUsageData.bumpHour (d : ApiUsageData) (hour_key endpoint : String)
    (success : Bool) : ApiUsageData :=
  let hb0 := match findAssoc? d.hourly_usage hour_key with
    | some b => b
    | none => ⟨0, 0, 0, []⟩
  let hb1 := { hb0 with
    calls := hb0.calls + 1,
    success := if success then hb0.success + 1 else hb0.success,
    errors := if success then hb0.errors else hb0.errors + 1 }
  let ep0 := match findAssoc? hb1.endpoints endpoint with
    | some b => b
    | none => ⟨0, 0, 0⟩
  let ep1 := { ep0 with
    calls := ep0.calls + 1,
    success := if success then ep0.success + 1 else ep0.success,
    errors := if success then ep0.errors else ep0.errors + 1 }
  let hb2 := { hb1 with endpoints := setAssoc hb1.endpoints endpoint ep1 }
  { d with hourly_usage := setAssoc d.hourly_usage hour_key hb2 }

/-- Day-bucket update of `record_api_call`. -/
def ApiUsageData.bumpDay (d : ApiUsageData) (day_key : String) (success : Bool) :
    ApiUsageData :=
  let db0 := match findAssoc? d.daily_usage day_key with
    | some b => b
    | none => ⟨0, 0, 0, 0⟩
  let db1 := { db0 with
    calls := db0.calls + 1,
    success := if success then db0.success + 1 else db0.success,
    errors := if success then db0.errors else db0.errors + 1 }
  { d with daily_usage := setAssoc d.daily_usage day_key db1 }

/-- Month-bucket update of `record_api_call`. -/
def ApiUsageData.bumpMonth (d : ApiUsageData) (month_key : String) (success : Bool) :
    ApiUsageData :=
  let mb0 := match findAssoc? d.monthly_usage month_key with
    | some b => b
    | none => ⟨0, 0, 0, 0, ⟨0, 0, 0⟩⟩
  let mb1 := { mb0 with
    calls := mb0.calls + 1,
    success := if success then mb0.success + 1 else mb0.success,
    errors := if success then mb0.errors else mb0.errors + 1 }
  { d with monthly_usage := setAssoc d.monthly_usage month_key mb1 }

/-- Apply a token increment to the current month bucket's token totals
(the bucket exists by this point of `record_api_call`). -/
def ApiUsageData.addMonthTokens (d : ApiUsageData) (month_key : String)
    (f : Tokens → Tokens) : ApiUsageData :=
  match findAssoc? d.monthly_usage month_key with
  | some b =>
    let mu := setAssoc d.monthly_usage month_key { b with tokens := f b.tokens }
    { d with monthly_usage := mu }
  | none => d

/-- Token accounting of `record_api_call`: each supplied component is
added to the record-level and month-level totals; with no explicit
`total` but both `prompt` and `completion` present their sum is added to
the totals. -/
def ApiUsageData.applyTokens (d : ApiUsageData) (month_key : String)
    (tokens : Option TokenInput) : ApiUsageData :=
  match tokens with
  | none => d
  | some t =>
    let da := match t.prompt with
      | some np =>
        let dp := { d with total_tokens := { d.total_tokens with prompt := d.total_tokens.prompt + np } }
        dp.addMonthTokens month_key (fun tk => { tk with prompt := tk.prompt + np })
      | none => d
    let db := match t.completion with
      | some nc =>
        let dc := { da with total_tokens := { da.total_tokens with completion := da.total_tokens.completion + nc } }
        dc.addMonthTokens month_key (fun tk => { tk with completion := tk.completion + nc })
      | none => da
    match t.total with
    | some nt =>
      let dt := { db with total_tokens := { db.total_tokens with total := db.total_tokens.total + nt } }
      dt.addMonthTokens month_key (fun tk => { tk with total := tk.total + nt })
    | none =>
      match t.prompt, t.completion with
      | some np, some nc =>
        let dt := { db with total_tokens := { db.total_tokens with total := db.total_tokens.total + (np + nc) } }
        dt.addMonthTokens month_key (fun tk => { tk with total := tk.total + (np + nc) })
      | _, _ => db

/-- Cost accounting of `record_api_call` (`if cost:` skips `None` and
`0.0`): the call cost is added to the record's `total_cost` and to the
current day and month buckets. -/
def ApiUsageData.applyCost (d : ApiUsageData) (day_key month_key : String)
    (cost : Option ℚ) : ApiUsageData :=
  match cost with
  | some cv =>
    if cv ≠ 0 then
      let dd := { d with costs := { d.costs with total_cost := d.costs.total_cost + cv } }
      let dd := match findAssoc? dd.daily_usage day_key with
        | some b =>
          let du := setAssoc dd.daily_usage day_key { b with cost := b.cost + cv }
          { dd with daily_usage := du }
        | none => dd
      match findAssoc? dd.monthly_usage month_key with
      | some b =>
        let mu := setAssoc dd.monthly_usage month_key { b with cost := b.cost + cv }
        { dd with monthly_usage := mu }
      | none => dd
    else d
  | none => d

/-- Record-level counters and `last_updated` of `record_api_call`. -/
def ApiUsageData.bumpTotals (d : ApiUsageData) (success : Bool) (now : Nat) :
    ApiUsageData :=
  { d with
    total_calls := d.total_calls + 1,
    success_count := if success then d.success_count + 1 else d.success_count,
    error_count := if success then d.error_count else d.error_count + 1,
    last_updated := now }

/-- Source `last_call` metadata of `record_api_call` (`if metadata:` skips `None`
and the empty dict). -/
def ApiUsageData.applyMetadata (d : ApiUsageData) (endpoint : String) (success : Bool)
    (duration : Option ℚ) (now : Nat) (metadata : Option (List (String × String))) :
    ApiUsageData :=
  match metadata with
  | some extra =>
    if extra.isEmpty then d
    else { d with metadata := some ⟨now, endpoint, success, duration, extra⟩ }
  | none => d

/-- Source `ApiMonitor.record_api_call`: under one lock acquisition, bump the
hourly/daily/monthly buckets (creating them lazily), the per-endpoint
counters, the token totals, the cost accumulators and the record-level
counters, set `last_updated`, store the `last_call` metadata when a
non-empty metadata dict is supplied, and finally — when autosave is due —
call `save_data`, which re-acquires the held lock and blocks forever. -/
def ApiMonitor.record_api_call (m : ApiMonitor) (clock : Clock)
    (api_name endpoint : String) (success : Bool) (tokens : Option TokenInput)
    (cost : Option ℚ) (duration : Option ℚ)
    (metadata : Option (List (String × String))) : Blocking Unit ApiMonitor :=
  let d := m.getOrCreate api_name clock.instant
  let d := d.bumpHour clock.hour_key endpoint success
  let d := d.bumpDay clock.day_key success
  let d := d.bumpMonth clock.month_key success
  let d := d.applyTokens clock.month_key tokens
  let d := d.applyCost clock.day_key clock.month_key cost
  let d := d.bumpTotals success clock.instant
  let d := d.applyMetadata endpoint success duration clock.instant metadata
  let m1 := { m with usage_data := setAssoc m.usage_data api_name d }
  if m1.auto_save ∧ clock.instant - m1.last_save_time > m1.save_interval then
    ApiMonitor.save_data true m1
  else
    .done () m1

/-- Hourly check of `check_limits`: a configured hourly limit is compared
(`>=`) against the current hour bucket's call count — only when that
bucket exists. -/
def hourlyLimitHit (d : ApiUsageData) (clock : Clock) : Option String :=
  match d.limits.hourly with
  | some lim =>
    match findAssoc? d.hourly_usage clock.hour_key with
    | some b => if b.calls ≥ lim then some "hourly" else none
    | none => none
  | none => none

/-- Daily check of `check_limits`. -/
def dailyLimitHit (d : ApiUsageData) (clock : Clock) : Option String :=
  match d.limits.daily with
  | some lim =>
    match findAssoc? d.daily_usage clock.day_key with
    | some b => if b.calls ≥ lim then some "daily" else none
    | none => none
  | none => none

/-- Monthly check of `check_limits`. -/
def monthlyLimitHit (d : ApiUsageData) (clock : Clock) : Option String :=
  match d.limits.monthly with
  | some lim =>
    match findAssoc? d.monthly_usage clock.month_key with
    | some b => if b.calls ≥ lim then some "monthly" else none
    | none => none
  | none => none

/-- Total-call check of `check_limits` (no bucket needed). -/
def totalLimitHit (d : ApiUsageData) : Option String :=
  match d.limits.total with
  | some lim => if d.total_calls ≥ lim then some "total" else none
  | none => none

/-- Monthly-budget check of `check_limits`: the configured budget against
the current month bucket's accumulated cost — only when that bucket
exists. -/
def budgetLimitHit (d : ApiUsageData) (clock : Clock) : Option String :=
  match d.costs.monthly_budget with
  | some b =>
    match findAssoc? d.monthly_usage clock.month_key with
    | some mb => if mb.cost ≥ b then some "budget" else none
    | none => none
  | none => none

/-- The per-record body of `check_limits`: the checks run in the source's
order — hourly, daily, monthly, total, budget — and the first one at or
above its threshold returns early. -/
def checkLimitsOf (d : ApiUsageData) (clock : Clock) : Bool × Option String :=
  match hourlyLimitHit d clock with
  | some t => (true, some t)
  | none =>
    match dailyLimitHit d clock with
    | some t => (true, some t)
    | none =>
      match monthlyLimitHit d clock with
      | some t => (true, some t)
      | none =>
        match totalLimitHit d with
        | some t => (true, some t)
        | none =>
          match budgetLimitHit d clock with
          | some t => (true, some t)
          | none => (false, none)

/-- Source `ApiMonitor.check_limits`: an unknown service is unlimited; otherwise
the per-record checks run. -/
def ApiMonitor.check_limits (m : ApiMonitor) (clock : Clock) (api_name : String) :
    Bool × Option String :=
  match findAssoc? m.usage_data api_name with
  | none => (false, none)
  | some d => checkLimitsOf d clock

/-- Source `ApiMonitor.set_limit`: create the record if missing, set the limit
field when `limit_type` is one of the four known kinds, then
`await self.save_data()` — which re-acquires the held lock and blocks. -/
def ApiMonitor.set_limit (m : ApiMonitor) (api_name limit_type : String)
    (value : Option Nat) (now : Nat) : Blocking Unit ApiMonitor :=
  let d0 := m.getOrCreate api_name now
  let d1 :=
    if limit_type = "hourly" then { d0 with limits := { d0.limits with hourly := value } }
    else if limit_type = "daily" then { d0 with limits := { d0.limits with daily := value } }
    else if limit_type = "monthly" then { d0 with limits := { d0.limits with monthly := value } }
    else if limit_type = "total" then { d0 with limits := { d0.limits with total := value } }
    else d0
  let m1 := { m with usage_data := setAssoc m.usage_data api_name d1 }
  ApiMonitor.save_data true m1

/-- Source `ApiMonitor.set_cost_info`: create the record if missing, set the
supplied cost fields, then `await self.save_data()` — blocking. -/
def ApiMonitor.set_cost_info (m : ApiMonitor) (api_name : String)
    (cost_per_call monthly_budget : Option ℚ) (now : Nat) : Blocking Unit ApiMonitor :=
  let d0 := m.getOrCreate api_name now
  let d1 := match cost_per_call with
    | some cpc => { d0 with costs := { d0.costs with cost_per_call := cpc } }
    | none => d0
  let d2 := match monthly_budget with
    | some b => { d1 with costs := { d1.costs with monthly_budget := some b } }
    | none => d1
  let m1 := { m with usage_data := setAssoc m.usage_data api_name d2 }
  ApiMonitor.save_data true m1

/-- The record `clear_usage_data` puts in place of a service's record: a
fresh `ApiUsageData` whose `api_type` is restored and whose previous
`limits` and `costs` dicts are carried over wholesale. -/
def ApiUsageData.cleared (d : ApiUsageData) (name : String) (now : Nat) : ApiUsageData :=
  { ApiUsageData.init now with api_type := name, limits := d.limits, costs := d.costs }

/-- Source `ApiMonitor.clear_usage_data`: replace the named service's record (or
every record) by a cleared one, then `await self.save_data()` — blocking. -/
def ApiMonitor.clear_usage_data (m : ApiMonitor) (api_name : Option String) (now : Nat) :
    Blocking Unit ApiMonitor :=
  let m1 := match api_name with
    | some name =>
      match findAssoc? m.usage_data name with
      | some d => { m with usage_data := setAssoc m.usage_data name (d.cleared name now) }
      | none => m
    | none =>
      { m with usage_data := m.usage_data.map (fun e => (e.1, (e.2).cleared e.1 now)) }
  ApiMonitor.save_data true m1

/-! ### C1: the self-deadlocks, evaluated -/

/-- C1 is violated by the code: `set_limit`, `set_cost_info`,
`clear_usage_data` and (when autosave is due) `record_api_call` all call
`save_data` while already holding the monitor's non-reentrant asyncio
lock, and `DiskCache.get` (expired entry) and `DiskCache.set` (any
expired entry present) call `delete` while already holding the disk
cache's lock — so the lock is acquired twice in one logical operation
and the operation awaits forever instead of returning.  Each conjunct
evaluates one such operation at a concrete input and observes that it
never completes. -/
theorem lock_reacquisition_blocks :
    (ApiMonitor.set_limit ⟨[], true, 60, 0⟩ "svc" "hourly" (some 5) 0).completed = false ∧
    (ApiMonitor.set_cost_info ⟨[], true, 60, 0⟩ "svc" (some 1) (some 10) 0).completed = false ∧
    (ApiMonitor.clear_usage_data ⟨[("svc", ApiUsageData.init 0)], true, 60, 0⟩
      (some "svc") 1).completed = false ∧
    (ApiMonitor.record_api_call ⟨[], true, 60, 0⟩ ⟨"h", "d", "mo", 100⟩ "svc" "ep"
      true none none none none).completed = false ∧
    ((⟨10, 10, [("k", 0)], [("k", 42)]⟩ : DiskCache Nat).get false "k" 11).completed = false ∧
    ((⟨10, 10, [("old", 0)], [("old", 1)]⟩ : DiskCache Nat).set false "new" 2 11).completed = false := by
  refine ⟨rfl, rfl, rfl, by decide, rfl, rfl⟩

/-! ### C2: what `clear_usage_data` actually preserves -/

/-- C2 counterexample: a monitor whose service `svc` has an existing
record with accumulated `total_cost = 5` and `total_calls = 3`.  The
claim says `clear_usage_data("svc")` zeroes `costs.total_cost`; the code
carries the whole `costs` dict over, so `total_cost` is still 5 after the
reset (while `total_calls` was indeed zeroed). -/
theorem clear_usage_data_keeps_total_cost :
    (findAssoc?
      ((ApiMonitor.clear_usage_data
        ⟨[("svc", { ApiUsageData.init 0 with total_calls := 3, costs := ⟨5, 0, none⟩ })],
         false, 60, 0⟩
        (some "svc") 1).state).usage_data "svc").map
      (fun d => (d.costs.total_cost, d.total_calls)) = some (5, 0) := by
  decide

/-- C2 (amended): `clear_usage_data(S)` replaces `S`'s record with a fresh
one — zero counts, empty buckets, zero token totals — carrying over the
previous `limits` and the previous `costs` record in its entirety: so
`cost_per_call` and `monthly_budget` are preserved, but so is the
accumulated `costs.total_cost`, which is NOT zeroed.  Every other
service's record is left unchanged. -/
theorem clear_usage_data_preserves_costs_and_frame (m : ApiMonitor) (S : String)
    (d : ApiUsageData) (now : Nat) (h : findAssoc? m.usage_data S = some d) :
    findAssoc? (ApiMonitor.clear_usage_data m (some S) now).state.usage_data S =
      some (d.cleared S now) ∧
    (d.cleared S now).total_calls = 0 ∧
    (d.cleared S now).success_count = 0 ∧
    (d.cleared S now).error_count = 0 ∧
    (d.cleared S now).hourly_usage = [] ∧
    (d.cleared S now).daily_usage = [] ∧
    (d.cleared S now).monthly_usage = [] ∧
    (d.cleared S now).total_tokens = ⟨0, 0, 0⟩ ∧
    (d.cleared S now).limits = d.limits ∧
    (d.cleared S now).costs = d.costs ∧
    (∀ S', S' ≠ S →
      findAssoc? (ApiMonitor.clear_usage_data m (some S) now).state.usage_data S' =
        findAssoc? m.usage_data S') := by
  have hstate : (ApiMonitor.clear_usage_data m (some S) now).state =
      { m with usage_data := setAssoc m.usage_data S (d.cleared S now) } := by
    unfold ApiMonitor.clear_usage_data ApiMonitor.save_data
    simp [h, Blocking.state]
  refine ⟨?_, rfl, rfl, rfl, rfl, rfl, rfl, rfl, rfl, rfl, ?_⟩
  · rw [hstate]
    exact findAssoc?_setAssoc_self m.usage_data S (d.cleared S now)
  · intro S' hS'
    rw [hstate]
    exact findAssoc?_setAssoc_ne m.usage_data S S' (d.cleared S now) hS'

/-- Witness for the amended C2: a monitor with two services, clearing
`svc` whose record holds accumulated cost 5 and limits. -/
theorem clear_usage_data_preserves_costs_and_frame_witness :
    (findAssoc?
      [("svc", { ApiUsageData.init 0 with total_calls := 3, costs := ⟨5, 1, some 10⟩ }),
       ("other", ApiUsageData.init 0)] "svc" =
      some { ApiUsageData.init 0 with total_calls := 3, costs := ⟨5, 1, some 10⟩ }) ∧
    (findAssoc? (ApiMonitor.clear_usage_data
        ⟨[("svc", { ApiUsageData.init 0 with total_calls := 3, costs := ⟨5, 1, some 10⟩ }),
          ("other", ApiUsageData.init 0)], false, 60, 0⟩ (some "svc") 7).state.usage_data "svc" =
      some (ApiUsageData.cleared
        { ApiUsageData.init 0 with total_calls := 3, costs := ⟨5, 1, some 10⟩ } "svc" 7) ∧
    (ApiUsageData.cleared { ApiUsageData.init 0 with total_calls := 3, costs := ⟨5, 1, some 10⟩ }
      "svc" 7).total_calls = 0 ∧
    (ApiUsageData.cleared { ApiUsageData.init 0 with total_calls := 3, costs := ⟨5, 1, some 10⟩ }
      "svc" 7).success_count = 0 ∧
    (ApiUsageData.cleared { ApiUsageData.init 0 with total_calls := 3, costs := ⟨5, 1, some 10⟩ }
      "svc" 7).error_count = 0 ∧
    (ApiUsageData.cleared { ApiUsageData.init 0 with total_calls := 3, costs := ⟨5, 1, some 10⟩ }
      "svc" 7).hourly_usage = [] ∧
    (ApiUsageData.cleared { ApiUsageData.init 0 with total_calls := 3, costs := ⟨5, 1, some 10⟩ }
      "svc" 7).daily_usage = [] ∧
    (ApiUsageData.cleared { ApiUsageData.init 0 with total_calls := 3, costs := ⟨5, 1, some 10⟩ }
      "svc" 7).monthly_usage = [] ∧
    (ApiUsageData.cleared { ApiUsageData.init 0 with total_calls := 3, costs := ⟨5, 1, some 10⟩ }
      "svc" 7).total_tokens = ⟨0, 0, 0⟩ ∧
    (ApiUsageData.cleared { ApiUsageData.init 0 with total_calls := 3, costs := ⟨5, 1, some 10⟩ }
      "svc" 7).limits = ({ ApiUsageData.init 0 with total_calls := 3, costs := ⟨5, 1, some 10⟩ } : ApiUsageData).limits ∧
    (ApiUsageData.cleared { ApiUsageData.init 0 with total_calls := 3, costs := ⟨5, 1, some 10⟩ }
      "svc" 7).costs = ({ ApiUsageData.init 0 with total_calls := 3, costs := ⟨5, 1, some 10⟩ } : ApiUsageData).costs ∧
    (∀ S', S' ≠ "svc" →
      findAssoc? (ApiMonitor.clear_usage_data
        ⟨[("svc", { ApiUsageData.init 0 with total_calls := 3, costs := ⟨5, 1, some 10⟩ }),
          ("other", ApiUsageData.init 0)], false, 60, 0⟩ (some "svc") 7).state.usage_data S' =
      findAssoc?
        [("svc", { ApiUsageData.init 0 with total_calls := 3, costs := ⟨5, 1, some 10⟩ }),
         ("other", ApiUsageData.init 0)] S')) :=
  ⟨by decide,
    clear_usage_data_preserves_costs_and_frame
      ⟨[("svc", { ApiUsageData.init 0 with total_calls := 3, costs := ⟨5, 1, some 10⟩ }),
        ("other", ApiUsageData.init 0)], false, 60, 0⟩ "svc"
      { ApiUsageData.init 0 with total_calls := 3, costs := ⟨5, 1, some 10⟩ } 7 (by decide)⟩

/-! ### C4: `check_limits` order and threshold semantics -/

/-- Modelled from the claim's words: a configured call-count limit is
reached when the current value is at or above it (`>=`, not `>`). -/
def reachedNat (limit : Option Nat) (current : Nat) : Bool :=
  match limit with
  | some lim => current ≥ lim
  | none => false

/-- Modelled from the claim's words, for the monthly budget. -/
def reachedBudget (budget : Option ℚ) (current : ℚ) : Bool :=
  match budget with
  | some b => current ≥ b
  | none => false

/-- Modelled from the claim's words, per record: evaluate, in the fixed
order hourly → daily → monthly → total → budget, each configured limit
against the current window's value — 0 when the current window has no
bucket — and return the first limit type found at or above its
threshold, else `(false, none)`. -/
def checkLimitsSpecOf (d : ApiUsageData) (clock : Clock) : Bool × Option String :=
  if reachedNat d.limits.hourly
      (((findAssoc? d.hourly_usage clock.hour_key).map HourBucket.calls).getD 0) then
    (true, some "hourly")
  else if reachedNat d.limits.daily
      (((findAssoc? d.daily_usage clock.day_key).map DayBucket.calls).getD 0) then
    (true, some "daily")
  else if reachedNat d.limits.monthly
      (((findAssoc? d.monthly_usage clock.month_key).map MonthBucket.calls).getD 0) then
    (true, some "monthly")
  else if reachedNat d.limits.total d.total_calls then
    (true, some "total")
  else if reachedBudget d.costs.monthly_budget
      (((findAssoc? d.monthly_usage clock.month_key).map MonthBucket.cost).getD 0) then
    (true, some "budget")
  else (false, none)

/-- Modelled from the claim's words: an unknown service reaches no limit;
otherwise the first-at-or-above evaluation runs on its record. -/
def checkLimitsSpec (m : ApiMonitor) (clock : Clock) (api_name : String) :
    Bool × Option String :=
  match findAssoc? m.usage_data api_name with
  | none => (false, none)
  | some d => checkLimitsSpecOf d clock

/-- C4 counterexample: configure `hourly limit = 0` for a service with no
call yet this hour.  The claim's first-at-or-above reading gives
`(true, "hourly")` (current value 0 ≥ threshold 0), but the code skips
window limits whose current bucket does not exist and returns
`(false, none)`. -/
theorem check_limits_zero_limit_empty_window :
    checkLimitsSpec
      ⟨[("svc", { ApiUsageData.init 0 with limits := ⟨some 0, none, none, none⟩ })], false, 60, 0⟩
      ⟨"h", "d", "mo", 0⟩ "svc" = (true, some "hourly") ∧
    ApiMonitor.check_limits
      ⟨[("svc", { ApiUsageData.init 0 with limits := ⟨some 0, none, none, none⟩ })], false, 60, 0⟩
      ⟨"h", "d", "mo", 0⟩ "svc" = (false, none) := by
  refine ⟨by decide, by decide⟩

/-- Every window-gated threshold of the record is positive: the amended
claim's proviso, under which the code agrees with the claim's
first-at-or-above reading (buckets exist exactly when at least one call
was recorded in the window, so a positive limit can only be reached when
its bucket exists). -/
def positiveWindowLimits (d : ApiUsageData) : Bool :=
  (match d.limits.hourly with | some l => decide (0 < l) | none => true) &&
  (match d.limits.daily with | some l => decide (0 < l) | none => true) &&
  (match d.limits.monthly with | some l => decide (0 < l) | none => true) &&
  (match d.costs.monthly_budget with | some b => decide (0 < b) | none => true)

theorem optPosNat_spec (o : Option Nat)
    (h : (match o with | some l => decide (0 < l) | none => true) = true) :
    ∀ l, o = some l → 0 < l := by
  intro l hl
  rw [hl] at h
  simpa using h

theorem optPosRat_spec (o : Option ℚ)
    (h : (match o with | some b => decide (0 < b) | none => true) = true) :
    ∀ b, o = some b → 0 < b := by
  intro b hb
  rw [hb] at h
  simpa using h

theorem mem_pair_of_findAssoc? {β : Type} (l : List (String × β)) (k : String) (v : β)
    (h : findAssoc? l k = some v) : (k, v) ∈ l := by
  induction l with
  | nil => simp [findAssoc?] at h
  | cons e rest ih =>
    by_cases he : e.1 = k
    · simp only [findAssoc?, he, if_true, Option.some.injEq] at h
      have hev : (k, v) = e := by
        cases e
        simp_all
      exact List.mem_cons.mpr (Or.inl hev)
    · simp only [findAssoc?, he, if_false] at h
      exact List.mem_cons_of_mem _ (ih h)

theorem hourlyLimitHit_eq_spec (d : ApiUsageData) (clock : Clock)
    (hpos : ∀ l, d.limits.hourly = some l → 0 < l) :
    hourlyLimitHit d clock =
      (if reachedNat d.limits.hourly
          (((findAssoc? d.hourly_usage clock.hour_key).map HourBucket.calls).getD 0) then
        some "hourly" else none) := by
  unfold hourlyLimitHit reachedNat
  cases hl : d.limits.hourly with
  | none => simp
  | some l =>
    cases hb : findAssoc? d.hourly_usage clock.hour_key with
    | none =>
      have hp := hpos l hl
      simp [Nat.not_le.mpr hp]
    | some b => simp

theorem dailyLimitHit_eq_spec (d : ApiUsageData) (clock : Clock)
    (hpos : ∀ l, d.limits.daily = some l → 0 < l) :
    dailyLimitHit d clock =
      (if reachedNat d.limits.daily
          (((findAssoc? d.daily_usage clock.day_key).map DayBucket.calls).getD 0) then
        some "daily" else none) := by
  unfold dailyLimitHit reachedNat
  cases hl : d.limits.daily with
  | none => simp
  | some l =>
    cases hb : findAssoc? d.daily_usage clock.day_key with
    | none =>
      have hp := hpos l hl
      simp [Nat.not_le.mpr hp]
    | some b => simp

theorem monthlyLimitHit_eq_spec (d : ApiUsageData) (clock : Clock)
    (hpos : ∀ l, d.limits.monthly = some l → 0 < l) :
    monthlyLimitHit d clock =
      (if reachedNat d.limits.monthly
          (((findAssoc? d.monthly_usage clock.month_key).map MonthBucket.calls).getD 0) then
        some "monthly" else none) := by
  unfold monthlyLimitHit reachedNat
  cases hl : d.limits.monthly with
  | none => simp
  | some l =>
    cases hb : findAssoc? d.monthly_usage clock.month_key with
    | none =>
      have hp := hpos l hl
      simp [Nat.not_le.mpr hp]
    | some b => simp

theorem totalLimitHit_eq_spec (d : ApiUsageData) :
    totalLimitHit d =
      (if reachedNat d.limits.total d.total_calls then some "total" else none) := by
  unfold totalLimitHit reachedNat
  cases hl : d.limits.total with
  | none => simp
  | some l => simp

theorem budgetLimitHit_eq_spec (d : ApiUsageData) (clock : Clock)
    (hpos : ∀ b, d.costs.monthly_budget = some b → 0 < b) :
    budgetLimitHit d clock =
      (if reachedBudget d.costs.monthly_budget
          (((findAssoc? d.monthly_usage clock.month_key).map MonthBucket.cost).getD 0) then
        some "budget" else none) := by
  unfold budgetLimitHit reachedBudget
  cases hl : d.costs.monthly_budget with
  | none => simp
  | some b =>
    cases hb : findAssoc? d.monthly_usage clock.month_key with
    | none =>
      have hp := hpos b hl
      simp [not_le.mpr hp]
    | some mb => simp

theorem checkLimitsOf_eq_spec (d : ApiUsageData) (clock : Clock)
    (hp : positiveWindowLimits d = true) :
    checkLimitsOf d clock = checkLimitsSpecOf d clock := by
  simp only [positiveWindowLimits, Bool.and_eq_true] at hp
  obtain ⟨⟨⟨hp1, hp2⟩, hp3⟩, hp4⟩ := hp
  unfold checkLimitsOf checkLimitsSpecOf
  rw [hourlyLimitHit_eq_spec d clock (optPosNat_spec _ hp1),
      dailyLimitHit_eq_spec d clock (optPosNat_spec _ hp2),
      monthlyLimitHit_eq_spec d clock (optPosNat_spec _ hp3),
      totalLimitHit_eq_spec d,
      budgetLimitHit_eq_spec d clock (optPosRat_spec _ hp4)]
  generalize reachedNat d.limits.hourly
    (((findAssoc? d.hourly_usage clock.hour_key).map HourBucket.calls).getD 0) = c1
  generalize reachedNat d.limits.daily
    (((findAssoc? d.daily_usage clock.day_key).map DayBucket.calls).getD 0) = c2
  generalize reachedNat d.limits.monthly
    (((findAssoc? d.monthly_usage clock.month_key).map MonthBucket.calls).getD 0) = c3
  generalize reachedNat d.limits.total d.total_calls = c4
  generalize reachedBudget d.costs.monthly_budget
    (((findAssoc? d.monthly_usage clock.month_key).map MonthBucket.cost).getD 0) = c5
  cases c1 <;> cases c2 <;> cases c3 <;> cases c4 <;> cases c5 <;> simp

theorem check_limits_eq_spec (m : ApiMonitor) (clock : Clock) (api_name : String)
    (hpos : ∀ p ∈ m.usage_data, positiveWindowLimits p.2 = true) :
    m.check_limits clock api_name = checkLimitsSpec m clock api_name := by
  unfold ApiMonitor.check_limits checkLimitsSpec
  cases hs : findAssoc? m.usage_data api_name with
  | none => rfl
  | some d =>
    exact checkLimitsOf_eq_spec d clock (hpos _ (mem_pair_of_findAssoc? _ _ _ hs))

/-- The monitor of the claim's boundary scenario: a fresh monitor (with
autosave off, so each recording completes) whose service `S` got
`hourly limit = 5`. -/
def hourlyScenarioBase : ApiMonitor :=
  (ApiMonitor.set_limit ⟨[], false, 60, 0⟩ "S" "hourly" (some 5) 0).state

/-- The clock of the boundary scenario: all calls fall in one hour. -/
def scenarioClock : Clock := ⟨"h", "d", "mo", 0⟩

/-- Source `k` successful calls recorded for service `svc` at endpoint `ep`
under `clock`. -/
def recordCalls (m : ApiMonitor) (clock : Clock) (svc ep : String) : Nat → ApiMonitor
  | 0 => m
  | n + 1 =>
    (ApiMonitor.record_api_call (recordCalls m clock svc ep n) clock svc ep
      true none none none none).state

/-- C4 (amended): `check_limits` evaluates hourly → daily → monthly →
total → budget and returns the first limit at or above its threshold
(`>=`), with the proviso that hourly/daily/monthly limits and the budget
are only consulted when the current window already has a bucket — for
positive thresholds this agrees with the claim's reading (a reached
positive limit implies a recorded call, hence a bucket), and the claim's
boundary scenario holds: with hourly limit 5, after exactly 5 recorded
calls in the hour `check_limits = (true, "hourly")`, after 4 the first
component is false. -/
theorem check_limits_first_reached_in_order (m : ApiMonitor) (clock : Clock)
    (api_name : String)
    (hpos : ∀ p ∈ m.usage_data, positiveWindowLimits p.2 = true) :
    m.check_limits clock api_name = checkLimitsSpec m clock api_name ∧
    (ApiMonitor.check_limits (recordCalls hourlyScenarioBase scenarioClock "S" "ep" 5)
        scenarioClock "S" = (true, some "hourly") ∧
     (ApiMonitor.check_limits (recordCalls hourlyScenarioBase scenarioClock "S" "ep" 4)
        scenarioClock "S").1 = false) :=
  ⟨check_limits_eq_spec m clock api_name hpos, by decide, by decide⟩

/-- Witness for the amended C4, at the scenario monitor itself. -/
theorem check_limits_first_reached_in_order_witness :
    (∀ p ∈ hourlyScenarioBase.usage_data, positiveWindowLimits p.2 = true) ∧
    (ApiMonitor.check_limits hourlyScenarioBase scenarioClock "S" =
        checkLimitsSpec hourlyScenarioBase scenarioClock "S" ∧
    (ApiMonitor.check_limits (recordCalls hourlyScenarioBase scenarioClock "S" "ep" 5)
        scenarioClock "S" = (true, some "hourly") ∧
     (ApiMonitor.check_limits (recordCalls hourlyScenarioBase scenarioClock "S" "ep" 4)
        scenarioClock "S").1 = false)) :=
  ⟨by decide, check_limits_first_reached_in_order hourlyScenarioBase scenarioClock "S"
    (by decide)⟩

/-! ### `BaseAPIClient.request` — the pipeline (`src/api/api_client.py`, lines 201-350)

The transport (`_request_impl`) catches every exception and returns a
`(success, data)` pair, so its behaviour is a function
`Nat → Bool × Payload α` of the invocation number.  The response payload
is either transport data (abstract `α`) or the usage-limit error dict the
preflight builds.  Dict introspection on responses (the `usage` token
fields) is abstracted by a caller-supplied `extractTokens`. -/

inductive Payload (α : Type) where
  | data (a : α)
  | usageLimitError (limit_type : Option String)
deriving DecidableEq

structure BaseAPIClient (ε α : Type) where
  use_cache : Bool
  use_monitor : Bool
  api_type : String
  class_name : String
  retry_config : RetryPolicy ε (Bool × Payload α)

/-- Source `_build_cache_key`: class name, upper-cased method and endpoint,
plus the query parameters sorted by key, joined with `:`. -/
def BaseAPIClient.buildCacheKey {ε α : Type} (c : BaseAPIClient ε α)
    (method endpoint : String) (params : List (String × String)) : String :=
  let parts := [c.class_name, method.toUpper, endpoint]
  let parts := if params.isEmpty then parts
    else parts ++ [String.intercalate "&"
      ((params.mergeSort (fun a b => a.1 ≤ b.1)).map (fun kv => kv.1 ++ "=" ++ kv.2))]
  String.intercalate ":" parts

/-- Source `_direct_request`: the transport call wrapped by the retry executor
with the client's policy.  `_request_impl` never raises, so every
invocation is an `ok` outcome. -/
def BaseAPIClient.directRequest {ε α : Type} (c : BaseAPIClient ε α)
    (transport : Nat → Bool × Payload α) : RetryTrace ε (Bool × Payload α) :=
  asyncRetry c.retry_config (fun i => .ok (transport i))

/-- Result of the EXECUTE stage: the outcome (`none` when an inner cache
operation blocked on its lock), the cache manager state, and how many
transport invocations and cache lookups were performed. -/
structure PipelineStep (ε α : Type) where
  result : Option (Except ε (Bool × Payload α))
  cache_manager : Option (CacheManager (Bool × Payload α))
  transport_calls : Nat
  cache_lookups : Nat

/-- Source `_cached_request`: look the key up in the tiered cache; on a hit
return the cached `(success, data)` pair; on a miss run the retried
transport and cache the result only when it is a success. -/
def BaseAPIClient.cachedRequest {ε α : Type} (c : BaseAPIClient ε α)
    (cm : CacheManager (Bool × Payload α)) (transport : Nat → Bool × Payload α)
    (method endpoint : String) (params : List (String × String)) (now : Nat) :
    PipelineStep ε α :=
  let key := c.buildCacheKey method endpoint params
  match cm.get key now with
  | .blocked cm' => ⟨none, some cm', 0, 1⟩
  | .done (some cached) cm' => ⟨some (.ok cached), some cm', 0, 1⟩
  | .done none cm' =>
    let tr := c.directRequest transport
    match tr.outcome with
    | .error e => ⟨some (.error e), some cm', tr.invocations, 1⟩
    | .ok result =>
      if result.1 then
        match cm'.set key result now with
        | .blocked cm'' => ⟨none, some cm'', tr.invocations, 1⟩
        | .done _ cm'' => ⟨some (.ok result), some cm'', tr.invocations, 1⟩
      else ⟨some (.ok result), some cm', tr.invocations, 1⟩

/-- End of one `request` call: either control returns with a result (or a
propagated exception) and the given counters and final states, or some
inner lock-guarded operation blocked and the call never returns. -/
inductive RequestEnd (ε α : Type) where
  | returns (result : Except ε (Bool × Payload α))
      (transport_calls cache_lookups recorded_calls : Nat)
      (monitor : Option ApiMonitor)
      (cache_manager : Option (CacheManager (Bool × Payload α)))
  | hangs

/-- The EXECUTE + RECORD stages of `request` (everything after the
preflight quota check): choose the cached or direct path, then — when
monitoring is on — record the call (success flag, extracted tokens on
success, duration, request metadata) before returning the result or
re-raising the exception. -/
def BaseAPIClient.requestAfterPreflight {ε α : Type} (c : BaseAPIClient ε α)
    (monitor : Option ApiMonitor) (cm : Option (CacheManager (Bool × Payload α)))
    (clock : Clock) (transport : Nat → Bool × Payload α)
    (extractTokens : Payload α → Option TokenInput) (dur : ℚ)
    (method endpoint : String) (params : List (String × String)) (body : Option String)
    (use_cache_arg : Option Bool) : RequestEnd ε α :=
  let should_use_cache := use_cache_arg.getD c.use_cache
  let step : PipelineStep ε α :=
    match (if should_use_cache && (method.toUpper == "GET") then cm else none) with
    | some theCm => c.cachedRequest theCm transport method endpoint params clock.instant
    | none =>
      let tr := c.directRequest transport
      ⟨some tr.outcome, cm, tr.invocations, 0⟩
  match step.result with
  | none => .hangs
  | some res =>
    match monitor, c.use_monitor with
    | some M, true =>
      let meta := [("method", method),
        ("params", if params.isEmpty then "None"
          else String.intercalate "&" (params.map (fun kv => kv.1 ++ "=" ++ kv.2))),
        ("data_size", toString ((body.map String.length).getD 0))]
      match res with
      | .ok r =>
        let tokens := if r.1 then extractTokens r.2 else none
        match M.record_api_call clock c.api_type endpoint r.1 tokens none (some dur)
            (some meta) with
        | .done _ M' =>
          .returns (.ok r) step.transport_calls step.cache_lookups 1 (some M')
            step.cache_manager
        | .blocked _ => .hangs
      | .error e =>
        match M.record_api_call clock c.api_type endpoint false none none (some dur)
            (some [("error", "exception")]) with
        | .done _ M' =>
          .returns (.error e) step.transport_calls step.cache_lookups 1 (some M')
            step.cache_manager
        | .blocked _ => .hangs
    | _, _ =>
      .returns res step.transport_calls step.cache_lookups 0 monitor step.cache_manager

/-- Source `BaseAPIClient.request`: PREFLIGHT — when monitoring is enabled, a
monitor is present and `check_limits` was requested, a reached limit
returns the usage-limit failure pair immediately (no transport call, no
retry, no cache lookup, no usage recording, no exception) — then the
EXECUTE/RECORD pipeline. -/
def BaseAPIClient.request {ε α : Type} (c : BaseAPIClient ε α)
    (monitor : Option ApiMonitor) (cm : Option (CacheManager (Bool × Payload α)))
    (clock : Clock) (transport : Nat → Bool × Payload α)
    (extractTokens : Payload α → Option TokenInput) (dur : ℚ)
    (method endpoint : String) (params : List (String × String)) (body : Option String)
    (use_cache_arg : Option Bool) (check_limits_arg : Bool) : RequestEnd ε α :=
  match monitor, c.use_monitor && check_limits_arg with
  | some M, true =>
    match M.check_limits clock c.api_type with
    | (true, lt) => .returns (.ok (false, .usageLimitError lt)) 0 0 0 monitor cm
    | (false, _) =>
      c.requestAfterPreflight monitor cm clock transport extractTokens dur method
        endpoint params body use_cache_arg
  | _, _ =>
    c.requestAfterPreflight monitor cm clock transport extractTokens dur method
      endpoint params body use_cache_arg

/-- C8: with governance enabled (monitoring on, monitor present, limit
check requested), a reached limit makes `request` return the
`(false, usage-limit error)` pair: no exception is raised, the transport
is never invoked (so the retry loop is never entered), no cache lookup is
performed, no usage is recorded, and all state is untouched. -/
theorem request_preflight_short_circuits {ε α : Type} (c : BaseAPIClient ε α)
    (monitor : Option ApiMonitor) (M : ApiMonitor)
    (cm : Option (CacheManager (Bool × Payload α))) (clock : Clock)
    (transport : Nat → Bool × Payload α) (extractTokens : Payload α → Option TokenInput)
    (dur : ℚ) (method endpoint : String) (params : List (String × String))
    (body : Option String) (use_cache_arg : Option Bool)
    (hm : monitor = some M) (hu : c.use_monitor = true)
    (hex : (M.check_limits clock c.api_type).1 = true) :
    c.request monitor cm clock transport extractTokens dur method endpoint params body
      use_cache_arg true =
    .returns (.ok (false, .usageLimitError (M.check_limits clock c.api_type).2))
      0 0 0 monitor cm := by
  subst hm
  unfold BaseAPIClient.request
  rcases hcl : M.check_limits clock c.api_type with ⟨b, lt⟩
  rw [hcl] at hex
  simp only at hex
  subst hex
  simp [hu, hcl]

/-- Witness for C8: a client for service `svc` whose monitor has
`total limit = 0` configured, so the preflight reports `total` reached. -/
theorem request_preflight_short_circuits_witness :
    (some (⟨[("svc", { ApiUsageData.init 0 with limits := ⟨none, none, none, some 0⟩ })],
        false, 60, 0⟩ : ApiMonitor) =
      some ⟨[("svc", { ApiUsageData.init 0 with limits := ⟨none, none, none, some 0⟩ })],
        false, 60, 0⟩ ∧
      (⟨true, true, "svc", "Client", ⟨3, 1, 10, 2, fun _ => true, none⟩⟩ :
        BaseAPIClient Unit Unit).use_monitor = true ∧
      ((⟨[("svc", { ApiUsageData.init 0 with limits := ⟨none, none, none, some 0⟩ })],
        false, 60, 0⟩ : ApiMonitor).check_limits ⟨"h", "d", "mo", 0⟩ "svc").1 = true) ∧
    ((⟨true, true, "svc", "Client", ⟨3, 1, 10, 2, fun _ => true, none⟩⟩ :
        BaseAPIClient Unit Unit).request
      (some ⟨[("svc", { ApiUsageData.init 0 with limits := ⟨none, none, none, some 0⟩ })],
        false, 60, 0⟩)
      none ⟨"h", "d", "mo", 0⟩ (fun _ => (true, .data ())) (fun _ => none) 1
      "GET" "/x" [] none none true =
    .returns (.ok (false, .usageLimitError
        (((⟨[("svc", { ApiUsageData.init 0 with limits := ⟨none, none, none, some 0⟩ })],
          false, 60, 0⟩ : ApiMonitor).check_limits ⟨"h", "d", "mo", 0⟩ "svc").2)))
      0 0 0
      (some ⟨[("svc", { ApiUsageData.init 0 with limits := ⟨none, none, none, some 0⟩ })],
        false, 60, 0⟩)
      none) :=
  ⟨⟨rfl, rfl, by decide⟩,
    request_preflight_short_circuits
      ⟨true, true, "svc", "Client", ⟨3, 1, 10, 2, fun _ => true, none⟩⟩
      (some ⟨[("svc", { ApiUsageData.init 0 with limits := ⟨none, none, none, some 0⟩ })],
        false, 60, 0⟩)
      ⟨[("svc", { ApiUsageData.init 0 with limits := ⟨none, none, none, some 0⟩ })],
        false, 60, 0⟩
      none ⟨"h", "d", "mo", 0⟩ (fun _ => (true, .data ())) (fun _ => none) 1
      "GET" "/x" [] none none rfl rfl (by decide)⟩

end Cloner
